import Mathlib

/-!
Verification of the FluxGrid core worker (Go sources under `core/`).

This file shallowly embeds the parts of the program that the spec's claims
are about:

* the JSON-RPC id normalization `canonicalID` of
  `core/internal/rpc/server.go` and the id normalization performed by the
  `query.cancel` handler of `core/internal/handlers/register.go`;
* the in-flight registry operation `Server.Cancel`;
* the read loop `Server.Serve` (as a sequential trace machine, which is
  exactly what the Go code is: the handler call happens inline between two
  decodes);
* the ack/stream session `StreamSession` of
  `core/internal/protocol/streaming.go`;
* the streaming producer `executeStream` of
  `core/internal/handlers/register.go`, with the outcome of each
  acknowledgement wait abstracted by an oracle;
* the option defaulting of `executeHandler`.

Machine integers of the Go code are modelled as `Int`/`Nat` (no arithmetic
here comes near an overflow).  JSON numbers decode to `float64` in Go; the
claims about ids only concern integral numbers, so numeric JSON values are
modelled as integers in the exactly-representable range, and the two Go
formatters that matter (`%.0f`, used by `canonicalID`, and the `%v`/shortest
`%g` formatting used by `fmt.Sprint`) are modelled on that range.
-/

namespace FluxGrid

/-! Decimal digit helpers -/

/-- Decimal digits of a natural number, least significant first, with
explicit fuel so the definition is structural (fuel `n + 1` always
suffices). -/
def natDigitsAux : Nat → Nat → List Nat
  | 0, _ => []
  | fuel + 1, n => if n < 10 then [n] else n % 10 :: natDigitsAux fuel (n / 10)

/-- Decimal digits of `n`, least significant first. -/
def natDigitsRev (n : Nat) : List Nat :=
  natDigitsAux (n + 1) n

/-- The ASCII digit character for a digit value. -/
def digitChar (d : Nat) : Char :=
  Char.ofNat (48 + d)

/-- Decimal rendering of a natural number. -/
def natDec (n : Nat) : String :=
  String.mk ((natDigitsRev n).reverse.map digitChar)

/-- Decimal rendering of an integer.  For an exactly-representable integral
`float64` this is what Go's `fmt.Sprintf("%.0f", ·)` produces. -/
def intDec (n : Int) : String :=
  if n < 0 then "-" ++ natDec n.natAbs else natDec n.natAbs

/-! JSON id values

A JSON-RPC id is a raw JSON fragment.  `encoding/json` decodes it into an
`interface{}` value; scalar shapes are `nil`, `bool`, `float64` and
`string`.  Arrays and objects are also possible id shapes; the default
formatter renders them as bracketed element lists, analogous to the scalar
cases modelled here, and none of the claims needs them, so the model keeps
the scalar shapes (with `null` already exhibiting a non-scalar-string
fallback). Numbers are restricted to integral values. -/

inductive Jval where
  | null
  | bool (b : Bool)
  | num (n : Int)
  | str (s : String)
deriving DecidableEq

/-- The raw (wire) JSON encoding of a `Jval`, for strings that need no
escaping. -/
def rawEncode : Jval → String
  | .null => "null"
  | .bool true => "true"
  | .bool false => "false"
  | .num n => intDec n
  | .str s => "\"" ++ s ++ "\""

/-- A raw id as held in `json.RawMessage`: either bytes that fail to decode,
or a decoded JSON value. -/
inductive RawId where
  | malformed (raw : String)
  | decoded (v : Jval)
deriving DecidableEq

/-- Go's shortest `%g` formatting (`strconv.FormatFloat(f, 'g', -1, 64)`) of
an exactly-representable integral `float64`: plain decimal digits while the
decimal exponent is below 6, otherwise mantissa-dot-fraction followed by
`e+` and a two-digit-padded exponent. -/
def goFloatG (n : Int) : String :=
  if n = 0 then "0"
  else
    let a := n.natAbs
    let ds := natDigitsRev a
    let sign := if n < 0 then "-" else ""
    if ds.length ≤ 6 then sign ++ natDec a
    else
      let sig := (ds.dropWhile (fun d => d = 0)).reverse
      let mant :=
        match sig with
        | [] => "0"
        | d :: rest =>
          String.mk [digitChar d] ++
            (if rest.isEmpty then "" else "." ++ String.mk (rest.map digitChar))
      let e := ds.length - 1
      sign ++ mant ++ "e+" ++ (if e < 10 then "0" ++ natDec e else natDec e)

/-- Go's `fmt.Sprint` of a decoded JSON `interface{}` value: `nil` prints
as `<nil>`, booleans by their names, numbers (held as `float64`) in
shortest `%g` form, strings verbatim. -/
def goSprint : Jval → String
  | .null => "<nil>"
  | .bool true => "true"
  | .bool false => "false"
  | .num n => goFloatG n
  | .str s => s

/-- Model of `canonicalID` in `core/internal/rpc/server.go`: raw bytes that fail to
decode are returned verbatim; a decoded `float64` is formatted with
`%.0f`; a decoded string is returned as is; every other decoded shape goes
through `fmt.Sprint`. -/
def canonicalID : RawId → String
  | .malformed raw => raw
  | .decoded (.num n) => intDec n
  | .decoded (.str s) => s
  | .decoded v => goSprint v

/-- The id normalization of the `query.cancel` handler
(`cancelHandler` in `core/internal/handlers/register.go`): raw bytes that
fail to decode are used verbatim; otherwise the decoded value is formatted
with `fmt.Sprint`. -/
def cancelNorm : RawId → String
  | .malformed raw => raw
  | .decoded v => goSprint v

/-! The in-flight registry and `Server.Cancel`

`Server.inflight` is a `sync.Map` from canonical id strings to
`context.CancelFunc` values; `Serve` is its only writer and always stores a
`CancelFunc`, so the registry is modelled as an association list from
strings to cancel handles (represented by numeric tokens).  `Cancel` is
modelled as a function of the registry returning the boolean result, the
new registry, and the list of cancel handles it invoked. -/

/-- Remove every entry with the given key (a `sync.Map` holds one entry per
key, so this is `sync.Map.Delete` on well-formed registries). -/
def removeKey (m : List (String × Nat)) (k : String) : List (String × Nat) :=
  m.filter (fun p => !(p.1 == k))

/-- Model of `Server.Cancel` in `core/internal/rpc/server.go`: look the id up; if an
entry is found, invoke its cancel handle, delete the entry and return
`true`; otherwise return `false`. -/
def Cancel (m : List (String × Nat)) (requestID : String) :
    Bool × List (String × Nat) × List Nat :=
  match m.lookup requestID with
  | some tok => (true, removeKey m requestID, [tok])
  | none => (false, m, [])

/-! The read loop `Server.Serve`

`Serve` decodes envelopes in a loop.  The model consumes the list of decode
results (end of list = `io.EOF`, i.e. clean end of input).  For every
envelope it does exactly what the Go loop body does, in the same order, and
records what happened in an output trace; in particular a request handler
is *called inline* (`result, rpcErr := handler(ctx, req.Params)`) between
one decode and the next, which the trace makes visible. -/

/-- A decoded JSON-RPC envelope: notifications carry no id. -/
structure Req where
  method : String
  id : Option Nat
  params : String
deriving DecidableEq

/-- One decode result of the loop's `decoder.Decode`. -/
inductive InEv where
  | env (r : Req)
  | decodeFail
deriving DecidableEq

/-- Observable step of the read loop: a notification handler spawned onto
its own goroutine, a warning for an unknown notification method, an inline
request-handler run, and the responses written to the output. -/
inductive OutEv where
  | spawned (method : String)
  | unknownNotifWarned (method : String)
  | ranHandler (method : String)
  | respOk (id : Nat)
  | respErr (id : Nat) (code : Int)
  | respMethodNotFound (id : Nat)
deriving DecidableEq

/-- How `Serve` returned: `eofOk` models `return nil` on `io.EOF`,
`decodeErr` models returning the decode error. -/
inductive ServeRes where
  | eofOk
  | decodeErr
deriving DecidableEq

/-- Model of `Server.Serve` in `core/internal/rpc/server.go` over the sequence of
decode results.  A handler is a total function from params to either a
result or an rpc error code; encode failures are logged and ignored by the
Go code, so responses are simply recorded. -/
def serveModel (hs : String → Option (String → Sum String Int))
    (ns : String → Bool) : List InEv → ServeRes × List OutEv
  | [] => (.eofOk, [])
  | .decodeFail :: _ => (.decodeErr, [])
  | .env r :: rest =>
    match r.id with
    | none =>
      ((serveModel hs ns rest).1,
        (if ns r.method then OutEv.spawned r.method
         else OutEv.unknownNotifWarned r.method) :: (serveModel hs ns rest).2)
    | some i =>
      match hs r.method with
      | none =>
        ((serveModel hs ns rest).1,
          OutEv.respMethodNotFound i :: (serveModel hs ns rest).2)
      | some h =>
        ((serveModel hs ns rest).1,
          OutEv.ranHandler r.method ::
            (match h r.params with
             | .inl _ => OutEv.respOk i
             | .inr c => OutEv.respErr i c) :: (serveModel hs ns rest).2)

/-- The handler table relevant to the inline-dispatch scenario: a streaming
`query.execute` handler and the `core.ping` handler. -/
def pingPongHandlers : String → Option (String → Sum String Int) :=
  fun m =>
    if m = "query.execute" then some (fun _ => Sum.inl "stream-result")
    else if m = "core.ping" then some (fun _ => Sum.inl "pong")
    else none

/-! The `StreamSession` of `core/internal/protocol/streaming.go`

This is the session type as it stands in the source: `HandleChunk` is a
non-blocking function of the session state and the chunk; when the
threshold test `shouldAck` fires it *emits* a `StreamAck` on its outgoing
channel (modelled as an optional returned ack) and resets `bufferedRows`.
It has no input by which an acknowledgement could reach it. -/

/-- A chunk of rows (`StreamChunk`). -/
structure StreamChunk where
  requestID : String
  seq : Int
  rows : List (List Jval)
  hasMore : Bool
deriving DecidableEq

/-- An acknowledgement (`StreamAck`). -/
structure StreamAck where
  requestID : String
  seq : Int
deriving DecidableEq

/-- The session state (`StreamSession`); the outgoing ack channel is
modelled at the call sites as the returned optional ack. -/
structure StreamSession where
  requestID : String
  highWaterMark : Int
  bufferedRows : Int
deriving DecidableEq

/-- Model of `NewStreamSession`: clamps a negative high-water mark to zero. -/
def NewStreamSession (requestID : String) (highWaterMark : Int) : StreamSession :=
  { requestID := requestID
    highWaterMark := if highWaterMark < 0 then 0 else highWaterMark
    bufferedRows := 0 }

/-- Model of `StreamSession.shouldAck`. -/
def StreamSession.shouldAck (s : StreamSession) (hasMore : Bool) : Bool :=
  if s.highWaterMark = 0 then !hasMore
  else if s.bufferedRows ≥ s.highWaterMark then true
  else if !hasMore then true
  else false

/-- Model of `StreamSession.HandleChunk`: updates the request id and the buffered
row count, then emits an ack (resetting `bufferedRows`, as `flushAck`
does) when `shouldAck` fires.  It returns the new state together with the
emitted ack, if any. -/
def StreamSession.HandleChunk (s : StreamSession) (c : StreamChunk) :
    StreamSession × Option StreamAck :=
  let s1 : StreamSession :=
    { requestID := if c.requestID ≠ "" then c.requestID else s.requestID
      highWaterMark := s.highWaterMark
      bufferedRows := s.bufferedRows + c.rows.length }
  if s1.shouldAck c.hasMore then
    ({ s1 with bufferedRows := 0 }, some { requestID := s1.requestID, seq := c.seq })
  else (s1, none)

/-! The spec's blocking stream coordinator

`core/internal/handlers/register.go` and
`core/internal/protocol/streaming_test.go` both use a *blocking*
`HandleChunk(ctx, chunk) error` that waits for an incoming ack; that
implementation is not among the sources (the `streaming.go` present holds
the non-blocking emitter above, which its own test file does not even
compile against). -/

/-- Modelled from the spec: the per-stream backpressure coordinator of
§4.2, whose blocking `onChunk` implementation is missing from the sources
(only its caller `executeStream` and its test
`TestStreamSessionWaitsForAckAtHighWaterMark` are present).  State is the
request id, the high-water mark and the buffered row count. -/
structure SpecCoordinator where
  requestID : String
  highWaterMark : Nat
  bufferedRows : Nat
deriving DecidableEq

/-- Modelled from the spec: coordinator construction with the given
high-water mark and no buffered rows. -/
def specNewCoordinator (requestID : String) (highWaterMark : Nat) : SpecCoordinator :=
  { requestID := requestID, highWaterMark := highWaterMark, bufferedRows := 0 }

/-- Modelled from the spec: `onChunk` increments `bufferedRows` by the row
count; if `highWaterMark = 0` it never waits ("disables all waiting");
otherwise it waits exactly when the post-increment `bufferedRows` has
reached the high-water mark or this is the final chunk, and a satisfied
gate resets `bufferedRows`.  The second component reports whether the call
waited for an ack/cancellation/timeout before returning. -/
def specOnChunk (s : SpecCoordinator) (rowCount : Nat) (hasMore : Bool) :
    SpecCoordinator × Bool :=
  let b := s.bufferedRows + rowCount
  let waits :=
    if s.highWaterMark = 0 then false
    else decide (s.highWaterMark ≤ b) || !hasMore
  if waits then ({ s with bufferedRows := 0 }, true)
  else ({ s with bufferedRows := b }, false)

/-- Modelled from the spec: run a sequence of `onChunk` calls (row count
and `hasMore` flag for each) and record, per call, whether it waited. -/
def specRunChunks (s : SpecCoordinator) : List (Nat × Bool) → List Bool
  | [] => []
  | (rc, hm) :: rest =>
    ((specOnChunk s rc hm).2) :: specRunChunks (specOnChunk s rc hm).1 rest

/-! The streaming producer `executeStream`

`executeStream` of `core/internal/handlers/register.go` connects, opens the
cursor, registers the stream, emits `query.stream.start`, batches rows into
chunks of `fetchSize`, and for each chunk notifies `query.stream.chunk` and
then calls the blocking `session.HandleChunk(streamCtx, chunk)`, mapping
its error to a terminal `query.stream.error`; on success it emits
`query.stream.complete`.  The model keeps the notification trace of one
execution (its `requestId` is fixed, so notifications carry no id); the
outcome of each acknowledgement wait is supplied by an oracle indexed by
the chunk's `seq`, which abstracts every possible behaviour of the blocking
wait; writes of notifications themselves are modelled as succeeding. -/

/-- Outcome of one blocking acknowledgement wait inside the producer's
`sendChunk`: a qualifying ack arrived, the operation's context was
cancelled (`context.Canceled`), the bounded ack-wait timeout elapsed
(`context.DeadlineExceeded`), or some other failure. -/
inductive AckWaitRes where
  | ok
  | cancelled
  | deadline
  | failed (msg : String)
deriving DecidableEq

/-- One iteration of the producer's row loop: a row was read, or
`rows.Values()` failed. -/
inductive RowEv where
  | row (r : List Jval)
  | valuesErr (msg : String)
deriving DecidableEq

/-- A notification emitted by the streaming producer for its request id. -/
inductive Notif where
  | start
  | chunk (seq : Nat) (rows : List (List Jval)) (hasMore : Bool)
  | complete
  | errN (code : String) (fatal : Bool)
deriving DecidableEq

/-- Terminal notifications: `query.stream.complete` and
`query.stream.error`. -/
def Notif.isTerminal : Notif → Bool
  | .complete => true
  | .errN _ _ => true
  | _ => false

/-- Chunk notifications (`query.stream.chunk`). -/
def Notif.isChunk : Notif → Bool
  | .chunk _ _ _ => true
  | _ => false

/-- A JSON-RPC error value as returned by the handler. -/
structure RpcErr where
  code : Int
  message : String
deriving DecidableEq

/-- The producer's `sendChunk` closure: nothing happens on an empty batch;
otherwise the chunk notification is emitted and the blocking
acknowledgement wait runs, whose failure modes map to the terminal
stream-error notifications `CANCELLED` (non-fatal), `ACK_TIMEOUT` (fatal)
and `STREAM_ABORTED` (fatal) and to the rpc errors `-32033`/`-32034`/
`-32035`. -/
def sendChunkM (oracle : Nat → AckWaitRes) (seq : Nat) (batch : List (List Jval))
    (hasMore : Bool) : List Notif × Option RpcErr :=
  if batch.isEmpty then ([], none)
  else
    match oracle seq with
    | .ok => ([.chunk seq batch hasMore], none)
    | .cancelled =>
      ([.chunk seq batch hasMore, .errN "CANCELLED" false],
        some { code := -32033, message := "stream cancelled" })
    | .deadline =>
      ([.chunk seq batch hasMore, .errN "ACK_TIMEOUT" true],
        some { code := -32034, message := "stream acknowledgement timeout" })
    | .failed m =>
      ([.chunk seq batch hasMore, .errN "STREAM_ABORTED" true],
        some { code := -32035, message := m })

/-- The producer's row loop (`for rows.Next()`): accumulate rows into the
batch; once the batch reaches `fetchSize`, send it with `hasMore = true`;
a `rows.Values()` failure emits the terminal `READ_ERROR` and aborts.  The
result is the emitted notifications together with either the final
`(seq, batch)` state or the rpc error that aborted the loop (whose
terminal notification is already in the trace). -/
def runRows (oracle : Nat → AckWaitRes) (fetchSize : Nat) :
    List RowEv → Nat → List (List Jval) →
    List Notif × Sum (Nat × List (List Jval)) RpcErr
  | [], seq, batch => ([], .inl (seq, batch))
  | .valuesErr m :: _, _, _ =>
    ([.errN "READ_ERROR" true], .inr { code := -32012, message := m })
  | .row r :: rest, seq, batch =>
    let b := batch ++ [r]
    if fetchSize ≤ b.length then
      match sendChunkM oracle seq b true with
      | (ns, some e) => (ns, .inr e)
      | (ns, none) =>
        ((ns ++ (runRows oracle fetchSize rest (seq + 1) []).1),
          (runRows oracle fetchSize rest (seq + 1) []).2)
    else runRows oracle fetchSize rest seq b

/-- Model of `executeStream`: failures to connect or to open the cursor return an
rpc error before anything is emitted; otherwise `query.stream.start` is
emitted, the row loop runs, a pending final batch is sent with
`hasMore = false`, a deferred `rows.Err()` failure emits the terminal
`READ_ERROR`, and on success exactly `query.stream.complete` ends the
trace. -/
def executeStreamM (connOk : Bool) (queryOk : Bool) (oracle : Nat → AckWaitRes)
    (fetchSize : Nat) (events : List RowEv) (iterErr : Option String) :
    List Notif × Option RpcErr :=
  if !connOk then ([], some { code := -32010, message := "failed to connect to database" })
  else if !queryOk then ([], some { code := -32011, message := "query execution failed" })
  else
    match runRows oracle fetchSize events 1 [] with
    | (ns, .inr e) => (Notif.start :: ns, some e)
    | (ns, .inl (seq, batch)) =>
      match sendChunkM oracle seq batch false with
      | (ns2, some e) => (Notif.start :: ns ++ ns2, some e)
      | (ns2, none) =>
        match iterErr with
        | some m =>
          (Notif.start :: ns ++ ns2 ++ [.errN "READ_ERROR" true],
            some { code := -32012, message := m })
        | none => (Notif.start :: ns ++ ns2 ++ [.complete], none)

/-- The pairing invariant of claim C4: a `CANCELLED` stream error is never
fatal, an `ACK_TIMEOUT` stream error always is. -/
def okErrPair (n : Notif) : Bool :=
  match n with
  | .errN "CANCELLED" true => false
  | .errN "ACK_TIMEOUT" false => false
  | _ => true

/-! Option defaulting in `executeHandler` -/

/-- The `options.stream` object of a `query.execute` request. -/
structure StreamOpts where
  highWaterMark : Int
  fetchSize : Int
deriving DecidableEq

/-- The `options` object of a `query.execute` request. -/
structure ExecOptions where
  timeoutSeconds : Int
  maxRows : Int
  mode : String
  stream : StreamOpts
deriving DecidableEq

/-- The defaulting block of `executeHandler` in
`core/internal/handlers/register.go`: every non-positive option value is
replaced by its default (30 s timeout, 500 max rows, 5000 high-water mark,
256 fetch size). -/
def applyOptionDefaults (o : ExecOptions) : ExecOptions :=
  { o with
    timeoutSeconds := if o.timeoutSeconds ≤ 0 then 30 else o.timeoutSeconds
    maxRows := if o.maxRows ≤ 0 then 500 else o.maxRows
    stream :=
      { highWaterMark := if o.stream.highWaterMark ≤ 0 then 5000 else o.stream.highWaterMark
        fetchSize := if o.stream.fetchSize ≤ 0 then 256 else o.stream.fetchSize } }

/-! Helper lemmas -/

theorem natDigitsAux_lt_ten : ∀ (fuel n : Nat), ∀ d ∈ natDigitsAux fuel n, d < 10 := by
  intro fuel
  induction fuel with
  | zero => intro n d hd; simp [natDigitsAux] at hd
  | succ f ih =>
    intro n d hd
    by_cases h : n < 10
    · simp [natDigitsAux, h] at hd
      omega
    · simp [natDigitsAux, h] at hd
      rcases hd with h1 | h2
      · omega
      · exact ih _ _ h2

theorem natDigitsAux_length_le : ∀ (fuel k n : Nat), n < 10 ^ k → 1 ≤ k →
    (natDigitsAux fuel n).length ≤ k := by
  intro fuel
  induction fuel with
  | zero => intro k n _ _; simp [natDigitsAux]
  | succ f ih =>
    intro k n hn hk
    by_cases h : n < 10
    · simp [natDigitsAux, h]
      exact hk
    · have hk2 : 2 ≤ k := by
        by_contra hcon
        have : k = 1 := by omega
        subst this
        simp at hn
        omega
      have hdiv : n / 10 < 10 ^ (k - 1) := by
        rw [Nat.div_lt_iff_lt_mul (by norm_num)]
        calc n < 10 ^ k := hn
          _ = 10 ^ (k - 1) * 10 := by
            rw [← pow_succ]
            congr 1
            omega
      have := ih (k - 1) (n / 10) hdiv (by omega)
      simp [natDigitsAux, h]
      omega

theorem digitChar_ne_dot : ∀ d : Nat, d < 10 → digitChar d ≠ '.' := by
  intro d hd
  interval_cases d <;> decide

theorem dot_notMem_natDec (n : Nat) : '.' ∉ (natDec n).data := by
  intro hmem
  have hmem' : '.' ∈ (natDigitsRev n).reverse.map digitChar := hmem
  rcases List.mem_map.mp hmem' with ⟨d, hd, hdc⟩
  have hd10 : d < 10 := natDigitsAux_lt_ten _ _ d (List.mem_reverse.mp hd)
  exact digitChar_ne_dot d hd10 hdc

theorem dot_notMem_intDec (n : Int) : '.' ∉ (intDec n).data := by
  unfold intDec
  split
  · intro hmem
    rw [String.data_append] at hmem
    rcases List.mem_append.mp hmem with h1 | h2
    · simp at h1
    · exact dot_notMem_natDec _ h2
  · exact dot_notMem_natDec _

theorem empty_append_str (s : String) : "" ++ s = s := by
  cases s
  rfl

theorem goFloatG_small (n : Int) (h : n.natAbs < 1000000) : goFloatG n = intDec n := by
  by_cases h0 : n = 0
  · subst h0
    decide
  · have hlen : (natDigitsRev n.natAbs).length ≤ 6 := by
      unfold natDigitsRev
      exact natDigitsAux_length_le _ 6 _ (by norm_num at h ⊢; exact h) (by norm_num)
    unfold goFloatG intDec
    rw [if_neg h0]
    simp only [hlen, if_true, if_pos]
    split
    · rfl
    · exact empty_append_str _

theorem lookup_removeKey : ∀ (m : List (String × Nat)) (k : String),
    (removeKey m k).lookup k = none := by
  intro m k
  induction m with
  | nil => rfl
  | cons p t ih =>
    rcases p with ⟨a, b⟩
    by_cases h : a = k
    · subst h
      simpa [removeKey, List.filter_cons] using ih
    · have h1 : (a == k) = false := beq_eq_false_iff_ne.mpr h
      have h2 : (k == a) = false := beq_eq_false_iff_ne.mpr (Ne.symm h)
      simp only [removeKey, List.filter_cons, h1, Bool.not_false, if_pos] at ih ⊢
      simp [List.lookup, h2]
      simpa [removeKey] using ih

theorem specRunChunks_zero_hwm : ∀ (calls : List (Nat × Bool)) (s : SpecCoordinator),
    s.highWaterMark = 0 → ((specRunChunks s calls).all fun w => !w) = true := by
  intro calls
  induction calls with
  | nil => intro s _; simp [specRunChunks]
  | cons c rest ih =>
    intro s h
    rcases c with ⟨rc, hm⟩
    have hstep : specOnChunk s rc hm =
        ({ s with bufferedRows := s.bufferedRows + rc }, false) := by
      simp [specOnChunk, h]
    simp only [specRunChunks, hstep, List.all_cons, Bool.not_false, Bool.true_and]
    exact ih _ (by simpa using h)

theorem chunk_not_terminal (n : Notif) (h : n.isChunk = true) :
    n.isTerminal = false := by
  cases n <;> simp_all [Notif.isChunk, Notif.isTerminal]

theorem start_not_terminal : Notif.start.isTerminal = false := rfl

theorem sendChunkM_shape (oracle : Nat → AckWaitRes) (seq : Nat)
    (batch : List (List Jval)) (hasMore : Bool) :
    (∀ e, (sendChunkM oracle seq batch hasMore).2 = some e →
      ∃ c t, (sendChunkM oracle seq batch hasMore).1 = [c, t] ∧
        c.isChunk = true ∧ t.isTerminal = true) ∧
    ((sendChunkM oracle seq batch hasMore).2 = none →
      ∀ x ∈ (sendChunkM oracle seq batch hasMore).1, x.isChunk = true) := by
  by_cases hb : batch.isEmpty <;> cases horc : oracle seq <;>
    simp [sendChunkM, hb, horc, Notif.isChunk, Notif.isTerminal] <;>
    exact ⟨_, _, ⟨rfl, rfl⟩, rfl, rfl⟩

theorem sendChunkM_okErrPair (oracle : Nat → AckWaitRes) (seq : Nat)
    (batch : List (List Jval)) (hasMore : Bool) :
    ((sendChunkM oracle seq batch hasMore).1.all okErrPair) = true := by
  by_cases hb : batch.isEmpty <;> cases horc : oracle seq <;>
    simp [sendChunkM, hb, horc, okErrPair]

theorem runRows_shape (oracle : Nat → AckWaitRes) (fetchSize : Nat) :
    ∀ (events : List RowEv) (seq : Nat) (batch : List (List Jval)),
      (∀ st, (runRows oracle fetchSize events seq batch).2 = .inl st →
        ∀ x ∈ (runRows oracle fetchSize events seq batch).1, x.isChunk = true) ∧
      (∀ e, (runRows oracle fetchSize events seq batch).2 = .inr e →
        ∃ cs t, (runRows oracle fetchSize events seq batch).1 = cs ++ [t] ∧
          (∀ x ∈ cs, x.isChunk = true) ∧ t.isTerminal = true) := by
  intro events
  induction events with
  | nil =>
    intro seq batch
    constructor
    · intro st _ x hx
      simp [runRows] at hx
    · intro e he
      simp [runRows] at he
  | cons ev rest ih =>
    intro seq batch
    cases ev with
    | valuesErr m =>
      constructor
      · intro st hst
        simp [runRows] at hst
      · intro e _
        exact ⟨[], Notif.errN "READ_ERROR" true, by simp [runRows], by simp, rfl⟩
    | row r =>
      by_cases hfs : fetchSize ≤ (batch ++ [r]).length
      · cases hsend : sendChunkM oracle seq (batch ++ [r]) true with
        | mk ns0 oe =>
          cases oe with
          | none =>
            have hrw : runRows oracle fetchSize (RowEv.row r :: rest) seq batch =
                (ns0 ++ (runRows oracle fetchSize rest (seq + 1) []).1,
                 (runRows oracle fetchSize rest (seq + 1) []).2) := by
              simp [runRows, hfs, hsend]
              all_goals
                intro hcon
                exfalso
                simp at hfs
                omega
            have hns0 : ∀ x ∈ ns0, x.isChunk = true := by
              have := (sendChunkM_shape oracle seq (batch ++ [r]) true).2
              rw [hsend] at this
              exact this rfl
            rw [hrw]
            constructor
            · intro st hst x hx
              rcases List.mem_append.mp hx with h1 | h2
              · exact hns0 x h1
              · exact (ih (seq + 1) []).1 st hst x h2
            · intro e he
              rcases (ih (seq + 1) []).2 e he with ⟨cs, t, h1, h2, h3⟩
              refine ⟨ns0 ++ cs, t, ?_, ?_, h3⟩
              · simp [h1]
              · intro x hx
                rcases List.mem_append.mp hx with h4 | h5
                · exact hns0 x h4
                · exact h2 x h5
          | some e0 =>
            have hrw : runRows oracle fetchSize (RowEv.row r :: rest) seq batch =
                (ns0, .inr e0) := by
              simp [runRows, hfs, hsend]
              all_goals
                intro hcon
                exfalso
                simp at hfs
                omega
            have hns0 : ∃ c t, ns0 = [c, t] ∧ c.isChunk = true ∧
                t.isTerminal = true := by
              have := (sendChunkM_shape oracle seq (batch ++ [r]) true).1
              rw [hsend] at this
              exact this e0 rfl
            rw [hrw]
            constructor
            · intro st hst
              simp at hst
            · intro e _
              rcases hns0 with ⟨c, t, h1, h2, h3⟩
              refine ⟨[c], t, by simp [h1], ?_, h3⟩
              intro x hx
              simp at hx
              subst hx
              exact h2
      · have hrw : runRows oracle fetchSize (RowEv.row r :: rest) seq batch =
            runRows oracle fetchSize rest seq (batch ++ [r]) := by
          simp [runRows, hfs]
          all_goals
            intro hcon
            exfalso
            simp at hfs
            omega
        rw [hrw]
        exact ih seq (batch ++ [r])

theorem runRows_okErrPair (oracle : Nat → AckWaitRes) (fetchSize : Nat) :
    ∀ (events : List RowEv) (seq : Nat) (batch : List (List Jval)),
      ((runRows oracle fetchSize events seq batch).1.all okErrPair) = true := by
  intro events
  induction events with
  | nil =>
    intro seq batch
    simp [runRows]
  | cons ev rest ih =>
    intro seq batch
    cases ev with
    | valuesErr m => simp [runRows, okErrPair]
    | row r =>
      by_cases hfs : fetchSize ≤ (batch ++ [r]).length
      · cases hsend : sendChunkM oracle seq (batch ++ [r]) true with
        | mk ns0 oe =>
          have hns0 : (ns0.all okErrPair) = true := by
            have := sendChunkM_okErrPair oracle seq (batch ++ [r]) true
            rw [hsend] at this
            exact this
          cases oe with
          | none =>
            have hrw : runRows oracle fetchSize (RowEv.row r :: rest) seq batch =
                (ns0 ++ (runRows oracle fetchSize rest (seq + 1) []).1,
                 (runRows oracle fetchSize rest (seq + 1) []).2) := by
              simp [runRows, hfs, hsend]
              all_goals
                intro hcon
                exfalso
                simp at hfs
                omega
            rw [hrw]
            simp only [List.all_append, hns0, Bool.true_and]
            exact ih (seq + 1) []
          | some e0 =>
            have hrw : runRows oracle fetchSize (RowEv.row r :: rest) seq batch =
                (ns0, .inr e0) := by
              simp [runRows, hfs, hsend]
              all_goals
                intro hcon
                exfalso
                simp at hfs
                omega
            rw [hrw]
            exact hns0
      · have hrw : runRows oracle fetchSize (RowEv.row r :: rest) seq batch =
            runRows oracle fetchSize rest seq (batch ++ [r]) := by
          simp [runRows, hfs]
          all_goals
            intro hcon
            exfalso
            simp at hfs
            omega
        rw [hrw]
        exact ih seq (batch ++ [r])

/-! Claims -/

/-- Claim C1, code evidence: in `Serve`, a decoded request's handler is
invoked inline on the read loop, so on an input holding a streaming
`query.execute` request followed by a `core.ping` request, the `core.ping`
handler only runs — and its response is only written — after the streaming
request's handler has returned; it is not answered concurrently while the
first handler is still blocked. -/
theorem claim_C1_requests_run_inline :
    serveModel pingPongHandlers (fun _ => false)
      [InEv.env { method := "query.execute", id := some 1, params := "stream" },
       InEv.env { method := "core.ping", id := some 2, params := "" }] =
    (ServeRes.eofOk,
      [OutEv.ranHandler "query.execute", OutEv.respOk 1,
       OutEv.ranHandler "core.ping", OutEv.respOk 2]) := by
  rfl

/-- Claim C2, code evidence: the `HandleChunk` in
`core/internal/protocol/streaming.go` is a total function of the session
state and the chunk with no acknowledgement input at all.  Replaying the
package's own test scenario (`highWaterMark = 3`, a 2-row chunk then a
1-row chunk, no ack ever delivered), the second call returns immediately —
and itself emits the ack — instead of blocking until an ack with
`seq ≥ 2` is received as the claim and the test
`TestStreamSessionWaitsForAckAtHighWaterMark` require. -/
theorem claim_C2_handleChunk_returns_without_ack :
    ((NewStreamSession "req-1" 3).HandleChunk
      { requestID := "req-1", seq := 1, rows := [[Jval.num 1], [Jval.num 2]],
        hasMore := true }).2 = none ∧
    (((NewStreamSession "req-1" 3).HandleChunk
        { requestID := "req-1", seq := 1, rows := [[Jval.num 1], [Jval.num 2]],
          hasMore := true }).1.HandleChunk
      { requestID := "req-1", seq := 2, rows := [[Jval.num 3]], hasMore := true }) =
    ({ requestID := "req-1", highWaterMark := 3, bufferedRows := 0 },
      some { requestID := "req-1", seq := 2 }) := by
  decide

/-- Claim C5: for a coordinator constructed with `highWaterMark = 0`, no
`onChunk` call ever waits for an acknowledgement, whatever the row counts
and `hasMore` flags of the chunks — a zero high-water mark disables all
waiting. -/
theorem claim_C5_zero_hwm_never_waits (requestID : String)
    (calls : List (Nat × Bool)) :
    ((specRunChunks (specNewCoordinator requestID 0) calls).all fun w => !w) = true :=
  specRunChunks_zero_hwm calls _ rfl

/-- Claim C6: `Serve` returns cleanly (`nil`) exactly when its input ends
without a decode failure, and returns an error exactly when decoding an
envelope fails; no handler table, notification table or input content can
terminate the loop otherwise — in particular handler errors and unknown
methods never do. -/
theorem claim_C6_serve_termination (hs : String → Option (String → Sum String Int))
    (ns : String → Bool) (evs : List InEv) :
    ((serveModel hs ns evs).1 = ServeRes.decodeErr ↔ InEv.decodeFail ∈ evs) ∧
    ((serveModel hs ns evs).1 = ServeRes.eofOk ↔ InEv.decodeFail ∉ evs) := by
  induction evs with
  | nil => simp [serveModel]
  | cons e rest ih =>
    cases e with
    | decodeFail => simp [serveModel]
    | env r =>
      rcases r with ⟨m, id?, p⟩
      cases id? with
      | none => simpa [serveModel] using ih
      | some i =>
        cases h : hs m with
        | none => simpa [serveModel, h] using ih
        | some f => simpa [serveModel, h] using ih

/-- Witness for claim C6 at concrete inputs: a decode failure terminates
with the error, an exhausted input terminates cleanly. -/
theorem claim_C6_witness :
    (serveModel (fun _ => none) (fun _ => false) [InEv.decodeFail]).1 =
      ServeRes.decodeErr ∧
    (serveModel (fun _ => none) (fun _ => false) []).1 = ServeRes.eofOk := by
  constructor
  · exact (claim_C6_serve_termination (fun _ => none) (fun _ => false)
      [InEv.decodeFail]).1.mpr (by decide)
  · exact (claim_C6_serve_termination (fun _ => none) (fun _ => false) []).2.mpr
      (by decide)

/-- Claim C7, counterexample: a decoded id of a non-string, non-numeric
shape does not fall back to its raw encoding — the id `null` (raw
encoding `null`) is normalized to `<nil>`, the default formatting of the
decoded Go value. -/
theorem claim_C7_counterexample :
    canonicalID (RawId.decoded Jval.null) = "<nil>" ∧
    rawEncode Jval.null = "null" ∧
    canonicalID (RawId.decoded Jval.null) ≠ rawEncode Jval.null := by
  decide

/-- Claim C7, amended: the normalization maps string ids to themselves and
integral numeric ids to their decimal rendering with no fraction part; ids
of any other decoded shape are formatted with the default formatting of
the decoded value (`fmt.Sprint`), and the raw encoding is used only when
the id bytes fail to decode. -/
theorem claim_C7_amended :
    (∀ raw, canonicalID (RawId.malformed raw) = raw) ∧
    (∀ s, canonicalID (RawId.decoded (Jval.str s)) = s) ∧
    (∀ n : Int, canonicalID (RawId.decoded (Jval.num n)) = intDec n ∧
      '.' ∉ (canonicalID (RawId.decoded (Jval.num n))).data) ∧
    (∀ b, canonicalID (RawId.decoded (Jval.bool b)) = goSprint (Jval.bool b)) ∧
    canonicalID (RawId.decoded Jval.null) = goSprint Jval.null := by
  refine ⟨fun _ => rfl, fun _ => rfl, fun n => ⟨rfl, dot_notMem_intDec n⟩,
    fun b => ?_, rfl⟩
  cases b <;> rfl

/-- Witness for the amended claim C7 at concrete ids: undecodable bytes
pass through verbatim, a string id maps to itself, an integral numeric id
to its fraction-free decimal rendering. -/
theorem claim_C7_witness :
    canonicalID (RawId.malformed "oops") = "oops" ∧
    canonicalID (RawId.decoded (Jval.str "abc")) = "abc" ∧
    canonicalID (RawId.decoded (Jval.num 17)) = intDec 17 := by
  refine ⟨claim_C7_amended.1 "oops", claim_C7_amended.2.1 "abc", ?_⟩
  exact (claim_C7_amended.2.2.1 17).1

/-- Claim C8: `Cancel` returns `true` exactly when the id is registered;
when it is, the stored cancel handle is invoked and the entry removed;
when it is not, nothing changes, no handle is invoked and no error is
produced.  After any `Cancel`, the id is no longer registered. -/
theorem claim_C8_cancel (m : List (String × Nat)) (requestID : String) :
    ((Cancel m requestID).1 = true ↔ (m.lookup requestID).isSome = true) ∧
    (Cancel m requestID).2.1.lookup requestID = none ∧
    (m.lookup requestID = none → Cancel m requestID = (false, m, [])) ∧
    (∀ tok, m.lookup requestID = some tok →
      (Cancel m requestID).1 = true ∧ (Cancel m requestID).2.2 = [tok]) := by
  cases h : m.lookup requestID with
  | none => simp [Cancel, h]
  | some tok => simp [Cancel, h, lookup_removeKey]

/-- Witness for claim C8 at a concrete registry: a present id is cancelled
with its handle invoked; an absent id leaves the registry untouched. -/
theorem claim_C8_witness :
    (Cancel [("req-7", 99)] "req-7").2.2 = [99] ∧
    Cancel [("req-7", 99)] "missing" = (false, [("req-7", 99)], []) := by
  constructor
  · exact ((claim_C8_cancel [("req-7", 99)] "req-7").2.2.2 99 (by decide)).2
  · exact (claim_C8_cancel [("req-7", 99)] "missing").2.2.1 (by decide)

/-- Claim C9: every non-positive `query.execute` option is replaced by its
default (`timeoutSeconds` 30, `maxRows` 500, `stream.highWaterMark` 5000,
`stream.fetchSize` 256), positive values are kept, and consequently the
stream session constructed from the defaulted options always has a
positive high-water mark — `highWaterMark = 0` is unreachable through
`query.execute`. -/
theorem claim_C9_option_defaults (o : ExecOptions) :
    ((o.timeoutSeconds ≤ 0 → (applyOptionDefaults o).timeoutSeconds = 30) ∧
     (0 < o.timeoutSeconds →
       (applyOptionDefaults o).timeoutSeconds = o.timeoutSeconds)) ∧
    ((o.maxRows ≤ 0 → (applyOptionDefaults o).maxRows = 500) ∧
     (0 < o.maxRows → (applyOptionDefaults o).maxRows = o.maxRows)) ∧
    ((o.stream.highWaterMark ≤ 0 →
       (applyOptionDefaults o).stream.highWaterMark = 5000) ∧
     (0 < o.stream.highWaterMark →
       (applyOptionDefaults o).stream.highWaterMark = o.stream.highWaterMark)) ∧
    ((o.stream.fetchSize ≤ 0 → (applyOptionDefaults o).stream.fetchSize = 256) ∧
     (0 < o.stream.fetchSize →
       (applyOptionDefaults o).stream.fetchSize = o.stream.fetchSize)) ∧
    0 < (applyOptionDefaults o).stream.highWaterMark ∧
    (∀ requestID, 0 < (NewStreamSession requestID
        (applyOptionDefaults o).stream.highWaterMark).highWaterMark) := by
  refine ⟨⟨?_, ?_⟩, ⟨?_, ?_⟩, ⟨?_, ?_⟩, ⟨?_, ?_⟩, ?_, ?_⟩ <;>
    (try intro h) <;> dsimp only [applyOptionDefaults, NewStreamSession] <;>
    split_ifs <;> omega

/-- Witness for claim C9 at all-zero options: every default kicks in and
the constructed session's high-water mark is positive. -/
theorem claim_C9_witness :
    (applyOptionDefaults
      { timeoutSeconds := 0, maxRows := 0, mode := "stream",
        stream := { highWaterMark := 0, fetchSize := 0 } }).stream.highWaterMark =
      5000 ∧
    0 < (NewStreamSession "req-1"
      (applyOptionDefaults
        { timeoutSeconds := 0, maxRows := 0, mode := "stream",
          stream := { highWaterMark := 0, fetchSize := 0 } }).stream.highWaterMark).highWaterMark := by
  constructor
  · exact (claim_C9_option_defaults _).2.2.1.1 (by decide)
  · exact (claim_C9_option_defaults _).2.2.2.2.2 "req-1"

/-- Claim C10, counterexample: the integral id `1000000` is normalized by
the server to `1000000` (`%.0f`) but by the `query.cancel` handler to
`1e+06` (default formatting of the decoded `float64`), so a cancel
carrying this id misses the in-flight entry. -/
theorem claim_C10_counterexample :
    cancelNorm (RawId.decoded (Jval.num 1000000)) = "1e+06" ∧
    canonicalID (RawId.decoded (Jval.num 1000000)) = "1000000" ∧
    cancelNorm (RawId.decoded (Jval.num 1000000)) ≠
      canonicalID (RawId.decoded (Jval.num 1000000)) := by
  decide

/-- Claim C10, amended: the cancel handler's normalization agrees with the
server's `canonicalID` for every string id and for every integral numeric
id of magnitude below `10^6`; from `10^6` up the default formatter
switches to exponent notation and the two keys differ (as they may for
non-integral ids). -/
theorem claim_C10_amended :
    (∀ s, cancelNorm (RawId.decoded (Jval.str s)) =
      canonicalID (RawId.decoded (Jval.str s))) ∧
    (∀ n : Int, n.natAbs < 1000000 →
      cancelNorm (RawId.decoded (Jval.num n)) =
        canonicalID (RawId.decoded (Jval.num n))) := by
  constructor
  · intro s; rfl
  · intro n h
    show goFloatG n = intDec n
    exact goFloatG_small n h

/-- Witness for claim C10 at the concrete id `42`: both normalizations
produce the same key. -/
theorem claim_C10_witness :
    cancelNorm (RawId.decoded (Jval.num 42)) =
      canonicalID (RawId.decoded (Jval.num 42)) :=
  claim_C10_amended.2 42 (by decide)

theorem executeStream_shape (oracle : Nat → AckWaitRes) (fetchSize : Nat)
    (events : List RowEv) (iterErr : Option String) :
    ∃ mid t, (executeStreamM true true oracle fetchSize events iterErr).1 =
      Notif.start :: mid ++ [t] ∧ (∀ x ∈ mid, x.isChunk = true) ∧
      t.isTerminal = true := by
  rcases hrun : runRows oracle fetchSize events 1 [] with ⟨ns, res⟩
  cases res with
  | inr e =>
    have htr : (executeStreamM true true oracle fetchSize events iterErr).1 =
        Notif.start :: ns := by
      unfold executeStreamM
      simp [hrun]
    have hshape := (runRows_shape oracle fetchSize events 1 []).2
    rw [hrun] at hshape
    rcases hshape e rfl with ⟨cs, t, h1, h2, h3⟩
    have h1' : ns = cs ++ [t] := h1
    exact ⟨cs, t, by rw [htr, h1']; simp, h2, h3⟩
  | inl st =>
    rcases st with ⟨seq, batch⟩
    have hns : ∀ x ∈ ns, x.isChunk = true := by
      have hshape := (runRows_shape oracle fetchSize events 1 []).1
      rw [hrun] at hshape
      exact hshape (seq, batch) rfl
    rcases hsend : sendChunkM oracle seq batch false with ⟨ns2, fin⟩
    cases fin with
    | some e =>
      have htr : (executeStreamM true true oracle fetchSize events iterErr).1 =
          Notif.start :: (ns ++ ns2) := by
        unfold executeStreamM
        simp [hrun, hsend]
      have hshape := (sendChunkM_shape oracle seq batch false).1
      rw [hsend] at hshape
      rcases hshape e rfl with ⟨c, t, h1, h2, h3⟩
      have h1' : ns2 = [c, t] := h1
      refine ⟨ns ++ [c], t, ?_, ?_, h3⟩
      · rw [htr, h1']
        simp
      · intro x hx
        rcases List.mem_append.mp hx with h4 | h5
        · exact hns x h4
        · simp at h5
          subst h5
          exact h2
    | none =>
      have hns2 : ∀ x ∈ ns2, x.isChunk = true := by
        have hshape := (sendChunkM_shape oracle seq batch false).2
        rw [hsend] at hshape
        exact hshape rfl
      have hboth : ∀ x ∈ ns ++ ns2, x.isChunk = true := by
        intro x hx
        rcases List.mem_append.mp hx with h4 | h5
        · exact hns x h4
        · exact hns2 x h5
      cases iterErr with
      | some m =>
        have htr : (executeStreamM true true oracle fetchSize events (some m)).1 =
            Notif.start :: (ns ++ ns2 ++ [Notif.errN "READ_ERROR" true]) := by
          unfold executeStreamM
          simp [hrun, hsend]
        exact ⟨ns ++ ns2, Notif.errN "READ_ERROR" true, by simp [htr],
          hboth, rfl⟩
      | none =>
        have htr : (executeStreamM true true oracle fetchSize events none).1 =
            Notif.start :: (ns ++ ns2 ++ [Notif.complete]) := by
          unfold executeStreamM
          simp [hrun, hsend]
        exact ⟨ns ++ ns2, Notif.complete, by simp [htr], hboth, rfl⟩

theorem last_terminal_aux :
    ∀ (l : List Notif) (t : Notif) (pre : List Notif) (t' : Notif)
      (post : List Notif),
      (∀ x ∈ l, x.isTerminal = false) → l ++ [t] = pre ++ t' :: post →
      t'.isTerminal = true → post = [] := by
  intro l
  induction l with
  | nil =>
    intro t pre t' post _ heq _
    cases pre with
    | nil =>
      simp at heq
      exact heq.2
    | cons p ps =>
      simp at heq
  | cons a l' ihl =>
    intro t pre t' post hl heq ht'
    cases pre with
    | nil =>
      simp at heq
      rcases heq with ⟨hat, _⟩
      have := hl a (List.mem_cons_self a l')
      rw [hat] at this
      rw [ht'] at this
      exact absurd this (by simp)
    | cons p ps =>
      simp at heq
      rcases heq with ⟨_, htail⟩
      exact ihl t ps t' post (fun x hx => hl x (List.mem_cons_of_mem a hx))
        htail ht'

/-- Claim C3: for every streaming execution that got as far as opening its
cursor (connect and query succeeded), whatever the rows, the read errors,
the fetch size and the outcomes of the acknowledgement waits, the emitted
notification trace contains exactly one terminal notification
(`query.stream.complete` or `query.stream.error`), and nothing at all — in
particular no `query.stream.chunk` — is emitted after it. -/
theorem claim_C3_one_terminal (oracle : Nat → AckWaitRes) (fetchSize : Nat)
    (events : List RowEv) (iterErr : Option String) :
    ((executeStreamM true true oracle fetchSize events iterErr).1.countP
      (fun n => n.isTerminal) = 1) ∧
    (∀ pre t post,
      (executeStreamM true true oracle fetchSize events iterErr).1 =
        pre ++ t :: post → t.isTerminal = true → post = []) := by
  rcases executeStream_shape oracle fetchSize events iterErr with
    ⟨mid, t, hshape, hmid, ht⟩
  constructor
  · have hmid0 : mid.countP (fun n => n.isTerminal) = 0 := by
      rw [List.countP_eq_zero]
      intro x hx
      simp [chunk_not_terminal x (hmid x hx)]
    rw [hshape]
    simp [List.countP_append, List.countP_cons, hmid0, ht, start_not_terminal]
  · intro pre t' post heq ht'
    have hl : ∀ x ∈ Notif.start :: mid, x.isTerminal = false := by
      intro x hx
      rcases List.mem_cons.mp hx with h1 | h2
      · subst h1; rfl
      · exact chunk_not_terminal x (hmid x h2)
    rw [hshape] at heq
    exact last_terminal_aux (Notif.start :: mid) t pre t' post hl heq ht'

/-- Witness for claim C3 at a concrete execution (one row, fetch size 1,
acks granted, no read error): the trace is `start, chunk, complete` with
exactly one terminal notification and nothing after it. -/
theorem claim_C3_witness :
    ((executeStreamM true true (fun _ => AckWaitRes.ok) 1
        [RowEv.row [Jval.num 7]] none).1.countP (fun n => n.isTerminal) = 1) ∧
    ([] : List Notif) = [] := by
  constructor
  · exact (claim_C3_one_terminal (fun _ => AckWaitRes.ok) 1
      [RowEv.row [Jval.num 7]] none).1
  · exact (claim_C3_one_terminal (fun _ => AckWaitRes.ok) 1
      [RowEv.row [Jval.num 7]] none).2
      [Notif.start, Notif.chunk 1 [[Jval.num 7]] true] Notif.complete []
      (by decide) (by decide)

/-- Claim C4: when a chunk's acknowledgement wait ends by context
cancellation the producer emits the terminal stream error `CANCELLED` with
`fatal = false`; when it ends by the ack-wait deadline it emits
`ACK_TIMEOUT` with `fatal = true`; and over every whole execution no
`CANCELLED` error is ever fatal and no `ACK_TIMEOUT` error is ever
non-fatal — the other pairing never occurs. -/
theorem claim_C4_error_pairing :
    (∀ (oracle : Nat → AckWaitRes) (seq : Nat) (batch : List (List Jval))
      (hasMore : Bool), batch ≠ [] →
      ((oracle seq = AckWaitRes.cancelled →
        sendChunkM oracle seq batch hasMore =
          ([.chunk seq batch hasMore, .errN "CANCELLED" false],
            some { code := -32033, message := "stream cancelled" })) ∧
       (oracle seq = AckWaitRes.deadline →
        sendChunkM oracle seq batch hasMore =
          ([.chunk seq batch hasMore, .errN "ACK_TIMEOUT" true],
            some { code := -32034,
                   message := "stream acknowledgement timeout" })))) ∧
    (∀ connOk queryOk oracle fetchSize events iterErr,
      ((executeStreamM connOk queryOk oracle fetchSize events
        iterErr).1.all okErrPair) = true) := by
  constructor
  · intro oracle seq batch hasMore hne
    have hb : batch.isEmpty = false := by
      cases batch
      · exact absurd rfl hne
      · rfl
    constructor <;> intro horc <;> simp [sendChunkM, hb, horc]
  · intro connOk queryOk oracle fetchSize events iterErr
    cases connOk
    · simp [executeStreamM]
    · cases queryOk
      · simp [executeStreamM]
      · rcases hrun : runRows oracle fetchSize events 1 [] with ⟨ns, res⟩
        have hns : (ns.all okErrPair) = true := by
          have h := runRows_okErrPair oracle fetchSize events 1 []
          rw [hrun] at h
          exact h
        cases res with
        | inr e =>
          have htr : (executeStreamM true true oracle fetchSize events
              iterErr).1 = Notif.start :: ns := by
            unfold executeStreamM
            simp [hrun]
          rw [htr]
          simp only [List.all_cons, hns, Bool.and_true]
          decide
        | inl st =>
          rcases st with ⟨seq, batch⟩
          rcases hsend : sendChunkM oracle seq batch false with ⟨ns2, fin⟩
          have hns2 : (ns2.all okErrPair) = true := by
            have h := sendChunkM_okErrPair oracle seq batch false
            rw [hsend] at h
            exact h
          cases fin with
          | some e =>
            have htr : (executeStreamM true true oracle fetchSize events
                iterErr).1 = Notif.start :: (ns ++ ns2) := by
              unfold executeStreamM
              simp [hrun, hsend]
            rw [htr]
            simp only [List.all_cons, List.all_append, hns, hns2,
              Bool.and_true]
            decide
          | none =>
            cases iterErr with
            | some m =>
              have htr : (executeStreamM true true oracle fetchSize events
                  (some m)).1 =
                  Notif.start :: (ns ++ ns2 ++ [Notif.errN "READ_ERROR" true]) := by
                unfold executeStreamM
                simp [hrun, hsend]
              rw [htr]
              simp only [List.all_cons, List.all_append, hns, hns2,
                Bool.and_true, Bool.true_and]
              decide
            | none =>
              have htr : (executeStreamM true true oracle fetchSize events
                  none).1 = Notif.start :: (ns ++ ns2 ++ [Notif.complete]) := by
                unfold executeStreamM
                simp [hrun, hsend]
              rw [htr]
              simp only [List.all_cons, List.all_append, hns, hns2,
                Bool.and_true, Bool.true_and]
              decide

/-- Witness for claim C4 at a concrete chunk (non-empty batch): a wait
ending in cancellation yields exactly the non-fatal `CANCELLED` terminal,
and a wait ending in the deadline yields exactly the fatal `ACK_TIMEOUT`
terminal. -/
theorem claim_C4_witness :
    sendChunkM (fun _ => AckWaitRes.cancelled) 1 [[Jval.num 1]] true =
      ([.chunk 1 [[Jval.num 1]] true, .errN "CANCELLED" false],
        some { code := -32033, message := "stream cancelled" }) ∧
    sendChunkM (fun _ => AckWaitRes.deadline) 2 [[Jval.num 2]] false =
      ([.chunk 2 [[Jval.num 2]] false, .errN "ACK_TIMEOUT" true],
        some { code := -32034, message := "stream acknowledgement timeout" }) := by
  constructor
  · exact ((claim_C4_error_pairing.1 (fun _ => AckWaitRes.cancelled) 1
      [[Jval.num 1]] true (by decide)).1 rfl)
  · exact ((claim_C4_error_pairing.1 (fun _ => AckWaitRes.deadline) 2
      [[Jval.num 2]] false (by decide)).2 rfl)

end FluxGrid
